import Mathlib

/-!
Verification development for the squid-log analysis tool (src/main.py).

The Python program reads whitespace-delimited proxy log files into a pandas
DataFrame (parse_squid_log_file), and computes up to four statistics over it
(calculate_most_freq_ip, calculate_least_freq_ip, calculate_events_sec,
calculate_total_bytes), gated by command-line flags in main.

The embedding below follows the source line by line.  Library calls made by
the source (pandas read_csv, value_counts, Grouper, to_datetime, Python
division and indexing) are modelled by their documented semantics; the doc
comment of each definition records the exact library behaviour it embeds.

Modelling conventions:
  - A DataFrame is its ordered list of parsed rows plus the optional derived
    "time" column that calculate_events_sec assigns (df["time"] = ...).
  - Python exceptions raised by the modelled fragment (IndexError from
    .index[0] on an empty index, ZeroDivisionError from / 0, OSError family
    from open) are explicit error values in an Except result.
  - Timestamps are modelled at whole-second resolution (Int); the sub-second
    part allowed by the format never affects the calendar-day bucketing that
    the analyzers perform.
  - Per-event byte counters are naturals; the byte totals the program
    computes are pandas int64 column sums, whose numpy reductions wrap
    silently — modelled by explicit reduction into signed 64-bit range.
-/

/-- Error values standing for the Python exceptions the modelled code can
raise, plus the EmptyInputError that the specification postulates (the source
never defines or raises it; it is listed so that statements about it can be
made and refuted). -/
inductive PyError
  | indexError
  | zeroDivisionError
  | emptyInput
deriving DecidableEq

/-- One parsed log record: the ten named columns of DF_NAMES, in order
(src/main.py lines 9-11).  Numeric columns carry their inferred numeric
values; the remaining columns are kept as raw string tokens. -/
structure LogEvent where
  timestamp : Int
  header_bytes : Nat
  client_ip : String
  http_resp_code : String
  resp_size_bytes : Nat
  http_req_meth : String
  url : String
  username : String
  access_dest_ip : String
  res_type : String
deriving DecidableEq

/-- The pandas DataFrame shared by main and the four calculate functions:
its ordered rows, plus the derived "time" column, present only after
calculate_events_sec has executed df["time"] = to_datetime(df["timestamp"]).
A datetime64 cell is represented by the epoch second it denotes. -/
structure DataFrame where
  rows : List LogEvent
  time : Option (List Int)
deriving DecidableEq

/-- The DataFrame as delivered by ingestion: rows only, no "time" column. -/
def DataFrame.ofRows (rows : List LogEvent) : DataFrame :=
  { rows := rows, time := none }

/-- One cell of a raw parsed row: a string token, or NaN for a column that
read_csv filled in because the line had fewer tokens than column names. -/
inductive Cell
  | val (s : String)
  | nan
deriving DecidableEq

/-- Outcome of the pandas python-engine parser on a single line of a file
whose expected row width has already been fixed (see implicit_index_count),
with header=None, names of length 10, delim_whitespace=True,
on_bad_lines="warn", skip_blank_lines=True (default):
  - a blank line is skipped silently;
  - a line with more fields than the expected width is a bad line,
    reported by a ParserWarning and skipped;
  - any other line becomes a row, short lines padded with NaN cells. -/
inductive LineResult
  | blank
  | badLine (line : String)
  | row (cells : List Cell)
deriving DecidableEq

/-- Tokenizer accumulator: walks the characters, splitting on runs of
whitespace, dropping empty tokens (delim_whitespace=True semantics). -/
def tokensAux : List Char → List Char → List String
  | [], acc => if acc.isEmpty then [] else [String.mk acc.reverse]
  | c :: cs, acc =>
    if c.isWhitespace then
      if acc.isEmpty then tokensAux cs [] else String.mk acc.reverse :: tokensAux cs []
    else tokensAux cs (c :: acc)

/-- Split a line on runs of whitespace, as pandas delim_whitespace=True does
(leading, trailing and repeated whitespace produce no tokens). -/
def tokenize (line : String) : List String :=
  tokensAux line.data []

/-- Number of implicit index columns pandas infers for a file read with
header=None and the 10 DF_NAMES: per the pandas io docs and the python
engine (PythonParser._infer_columns and _get_index_name), when the first
data row holds more fields than there are column names, the extra leading
fields become the row index — one index level per extra field — and the
expected row width for the whole file becomes 10 plus that count.  A first
data row with at most 10 fields gives no implicit index.  Blank lines are
skipped before the inference; an empty file gives no implicit index (with
names supplied, the python engine builds an empty frame from the names). -/
def implicit_index_count (lines : List String) : Nat :=
  match lines.find? (fun l => !(tokenize l).isEmpty) with
  | none => 0
  | some l => (tokenize l).length - 10

/-- Row conversion of one line of a file whose expected width is 10 + k
fields, k being the implicit index column count (see LineResult).  A line
within the width becomes a row: its first k fields go to the row index
(dropped here — the analyzers never read the index), the following fields
fill the 10 named columns in order, and missing trailing columns are
NaN. -/
def parse_line (k : Nat) (line : String) : LineResult :=
  match tokenize line with
  | [] => LineResult.blank
  | ts =>
    if 10 + k < ts.length then LineResult.badLine line
    else LineResult.row ((ts.drop k).map Cell.val
      ++ List.replicate (10 - (ts.length - k)) Cell.nan)

/-- The row-conversion stage of pandas.read_csv at a fixed expected width
of 10 + k fields: the parser walks the lines in order; rows accumulate in
line order; each bad line is recorded (the emitted ParserWarning) and
skipped; no line ever aborts the read. -/
def read_csv_body (k : Nat) : List String → List (List Cell) × List String
  | [] => ([], [])
  | line :: rest =>
    let r := read_csv_body k rest
    match parse_line k line with
    | LineResult.blank => r
    | LineResult.badLine l => (r.1, l :: r.2)
    | LineResult.row cs => (cs :: r.1, r.2)

/-- pandas.read_csv on one file as configured at src/main.py lines 96-101:
the expected row width is fixed by implicit-index inference on the first
data row, then every line is converted at that width.  The result is the
rows (the 10 named columns of each; the implicit index, when there is one,
is dropped) and the bad-line warnings. -/
def read_csv (lines : List String) : List (List Cell) × List String :=
  read_csv_body (implicit_index_count lines) lines

/-- Contents of a file on disk: whether the current user may open it, and
its lines. -/
structure FileData where
  readable : Bool
  lines : List String
deriving DecidableEq

/-- What a path names on disk: a regular file, a directory (with the names
os.listdir would return, in order), or nothing. -/
inductive FSEntry
  | file (data : FileData)
  | dir (names : List String)
  | missing
deriving DecidableEq

/-- Python exceptions that can escape parse_squid_log_file: the OSError
family raised by open() inside pandas.read_csv.  Any of them aborts the
whole ingestion, since the source has no try/except around the loop. -/
inductive IngestError
  | unreadable (path : String)
  | notAFile (path : String)
deriving DecidableEq

/-- read_input, src/main.py lines 46-69, without the final exit() check:
walks the given paths in order; a regular file is appended; a directory
contributes os.path.join(fpath, f) for each listed name; a nonexistent path
is skipped after logging.error("Path does not exist: %s", fpath).  Returns
the collected file list and the error log. -/
def read_input_core (fs : String → FSEntry) : List String → List String × List String
  | [] => ([], [])
  | fpath :: rest =>
    let r := read_input_core fs rest
    match fs fpath with
    | FSEntry.file _ => (fpath :: r.1, r.2)
    | FSEntry.dir names => (names.map (fun f => fpath ++ "/" ++ f) ++ r.1, r.2)
    | FSEntry.missing => (r.1, ("Path does not exist: " ++ fpath) :: r.2)

/-- read_input with the `if not res: exit()` at lines 67-68: none models the
process exiting because no file was collected. -/
def read_input (fs : String → FSEntry) (input_path : List String) :
    Option (List String × List String) :=
  let r := read_input_core fs input_path
  if r.1.isEmpty then none else some r

/-- The lines read_csv would see for a path, when open() succeeds there. -/
def readableLines : FSEntry → Option (List String)
  | FSEntry.file d => if d.readable then some d.lines else none
  | _ => none

/-- parse_squid_log_file, src/main.py lines 84-103: reads each file with
pandas.read_csv and concatenates the resulting frames in file order.  A
path that cannot be opened makes open() raise (PermissionError for an
unreadable file, IsADirectoryError or FileNotFoundError otherwise); the
exception propagates, so every later file is left unprocessed.  The ok
result carries the concatenated rows and the collected bad-line warnings. -/
def parse_squid_log_file (fs : String → FSEntry) :
    List String → Except IngestError (List (List Cell) × List String)
  | [] => Except.ok ([], [])
  | file_path :: rest =>
    match readableLines (fs file_path) with
    | some lines =>
      match parse_squid_log_file fs rest with
      | Except.ok r => Except.ok ((read_csv lines).1 ++ r.1, (read_csv lines).2 ++ r.2)
      | Except.error e => Except.error e
    | none =>
      Except.error
        (match fs file_path with
         | FSEntry.file _ => IngestError.unreadable file_path
         | _ => IngestError.notAFile file_path)

/-- The distinct values of a list in order of first appearance.  This is the
key order produced by the pandas hashtable value_count helper, which since
pandas 1.3 explicitly remembers the order in which keys are first seen
(comment "we track the order in which keys are first seen (GH39009)" in
pandas/_libs/hashtable_func_helper.pxi.in). -/
def firstSeenKeys {α : Type} [DecidableEq α] : List α → List α
  | [] => []
  | x :: xs => x :: firstSeenKeys (xs.filter (fun y => y ≠ x))
termination_by l => l.length
decreasing_by
  simp only [List.length_cons]
  exact Nat.lt_succ_of_le (List.length_filter_le _ _)

/-- Insert a (key, count) pair into a list that is already sorted by count
descending, in front of the first entry whose count does not exceed it. -/
def orderedInsert (p : String × Nat) : List (String × Nat) → List (String × Nat)
  | [] => [p]
  | q :: l => if q.2 ≤ p.2 then p :: q :: l else q :: orderedInsert p l

/-- Insertion sort by count descending, standing for
Series.sort_values(ascending=False) on the counts.  pandas sorts via numpy
argsort with the default kind="quicksort"; that sort is NOT stable in
general, so the program guarantees only the descending count order and
fixes no relative order among entries with equal counts.  An executable
model must pick some order; insertion sort keeps the first-appearance
order of ties, which coincides with numpy exactly on small arrays
(introsort runs a plain, stable insertion sort below its 16-element
threshold).  Theorems about the program therefore use only
tie-order-independent consequences of the descending order (the first
entry attains a maximal count, the last entry a minimal count), except on
concrete inputs small enough for the insertion-sort path. -/
def sortDesc : List (String × Nat) → List (String × Nat)
  | [] => []
  | p :: l => orderedInsert p (sortDesc l)

/-- pandas Series.value_counts on a column of strings: one (key, count)
entry per distinct value — keys first listed in order of first appearance
(the pandas hashtable tracks first-seen order, GH39009) — then sorted by
count descending with sort_values; see sortDesc for the unspecified tie
order and what the model may rely on. -/
def value_counts (xs : List String) : List (String × Nat) :=
  sortDesc ((firstSeenKeys xs).map (fun k => (k, xs.count k)))

/-- The client_ip column of the frame, df["client_ip"]. -/
def ips (events : List LogEvent) : List String :=
  events.map (fun e => e.client_ip)

/-- Occurrence count of a client_ip over the frame. -/
def cnt (events : List LogEvent) (s : String) : Nat :=
  (ips events).count s

/-- calculate_most_freq_ip, src/main.py lines 106-115:
df["client_ip"].value_counts().index[0].  Index 0 of an empty index raises
IndexError.  The frame is not modified. -/
def calculate_most_freq_ip (df : DataFrame) : Except PyError String × DataFrame :=
  (match (value_counts (ips df.rows)).head? with
   | some p => Except.ok p.1
   | none => Except.error PyError.indexError, df)

/-- calculate_least_freq_ip, src/main.py lines 118-127:
df["client_ip"].value_counts().index[-1].  Index -1 of an empty index
raises IndexError.  The frame is not modified. -/
def calculate_least_freq_ip (df : DataFrame) : Except PyError String × DataFrame :=
  (match (value_counts (ips df.rows)).getLast? with
   | some p => Except.ok p.1
   | none => Except.error PyError.indexError, df)

/-- The UTC calendar day holding an epoch timestamp: floor division by
86400, the day key produced by to_datetime(..., unit='s') followed by
daily binning. -/
def dayKey (t : Int) : Int := Int.fdiv t 86400

/-- The day keys of all events, in frame order. -/
def eventDays (events : List LogEvent) : List Int :=
  events.map (fun e => dayKey e.timestamp)

/-- Earliest day key of the frame (0 if the frame is empty; unused then). -/
def minDay (events : List LogEvent) : Int :=
  match eventDays events with
  | [] => 0
  | d :: ds => ds.foldl min d

/-- Latest day key of the frame (0 if the frame is empty; unused then). -/
def maxDay (events : List LogEvent) : Int :=
  match eventDays events with
  | [] => 0
  | d :: ds => ds.foldl max d

/-- The consecutive day labels from first to last, pandas date_range with
freq="D": every calendar day of the span, whether or not any event falls
on it. -/
def date_range (first last : Int) : List Int :=
  (List.range ((last - first).toNat + 1)).map (fun (i : Nat) => first + (i : Int))

/-- df.groupby(pandas.Grouper(key="time", freq="D")).ngroups, src/main.py
line 149.  A time Grouper bins like resample: its bins are the date_range
of consecutive days covering the whole observed span (with origin
"start_day"), and ngroups is len(result_index) = the number of bins, empty
bins included.  An empty frame yields no bins. -/
def number_of_groups (events : List LogEvent) : Nat :=
  if events.isEmpty then 0 else (date_range (minDay events) (maxDay events)).length

/-- Python true division: raises ZeroDivisionError on a zero divisor. -/
def pyDiv (a b : ℚ) : Except PyError ℚ :=
  if b = 0 then Except.error PyError.zeroDivisionError else Except.ok (a / b)

/-- calculate_events_sec, src/main.py lines 130-150: first assigns the
derived column df["time"] = to_datetime(df["timestamp"], unit="s") on the
shared frame, then returns df.shape[0] / number_of_groups / 86400 with
Python division (ZeroDivisionError when the frame is empty, since the
Grouper then has zero bins). -/
def calculate_events_sec (df : DataFrame) : Except PyError ℚ × DataFrame :=
  let df2 : DataFrame := { df with time := some (df.rows.map (fun e => e.timestamp)) }
  (match pyDiv (df2.rows.length : ℚ) (number_of_groups df2.rows : ℚ) with
   | Except.ok a => pyDiv a 86400
   | Except.error e => Except.error e, df2)

/-- Reduction of an integer into the signed 64-bit range, two's
complement: the silent wraparound of numpy int64 arithmetic. -/
def int64_wrap (n : Int) : Int := (n + 2 ^ 63) % 2 ^ 64 - 2 ^ 63

/-- calculate_total_bytes, src/main.py lines 153-163: sums the
header_bytes column and the resp_size_bytes column with
df[["header_bytes", "resp_size_bytes"]].sum(), then adds the two column
sums.  pandas infers int64 for these columns (the case modelled here: it
holds whenever every cell fits in 64 bits), and both the numpy column
reductions and the final scalar addition wrap silently, each result being
the exact value reduced into signed 64-bit range.  The frame is not
modified; an empty column sums to 0. -/
def calculate_total_bytes (df : DataFrame) : Int × DataFrame :=
  (int64_wrap
    (int64_wrap (((df.rows.map (fun e => e.header_bytes)).sum : Nat) : Int)
      + int64_wrap (((df.rows.map (fun e => e.resp_size_bytes)).sum : Nat) : Int)), df)

/-- The four boolean statistic flags of the argparse namespace
(get_argument_parser, src/main.py lines 188-199). -/
structure Args where
  most_freq_ip : Bool
  least_freq_ip : Bool
  events_sec : Bool
  total_bytes : Bool
deriving DecidableEq

/-- A value emitted with a label: a plain string, a Python float printed by
str(), or an integer printed by str(). -/
inductive OutVal
  | s (v : String)
  | q (v : ℚ)
  | n (v : Int)
deriving DecidableEq

/-- One guarded block of main: when the flag is set, run the statistic on
the current frame, append its (label, value) pair to the output, and keep
the possibly updated frame; an exception aborts main.  When the flag is
unset, nothing happens. -/
def runStat (flag : Bool) (label : String)
    (f : DataFrame → Except PyError OutVal × DataFrame)
    (acc : List (String × OutVal) × DataFrame) :
    Except PyError (List (String × OutVal) × DataFrame) :=
  if flag then
    match f acc.2 with
    | (Except.ok v, df) => Except.ok (acc.1 ++ [(label, v)], df)
    | (Except.error e, _) => Except.error e
  else Except.ok acc

/-- The statistics section of main, src/main.py lines 23-41, applied to the
frame returned by parse_squid_log_file.  Faithful to the source, the four
blocks test, in order: args.most_freq_ip (line 23), args.least_freq_ip
(line 28), args.least_freq_ip again (line 33), and args.least_freq_ip again
(line 38) — the events_sec and total_bytes flags are never consulted. -/
def main_outputs (args : Args) (df : DataFrame) :
    Except PyError (List (String × OutVal) × DataFrame) :=
  match runStat args.most_freq_ip "Most frequent IP"
      (fun d => ((calculate_most_freq_ip d).1.map OutVal.s, (calculate_most_freq_ip d).2))
      ([], df) with
  | Except.error e => Except.error e
  | Except.ok acc1 =>
    match runStat args.least_freq_ip "Least frequent IP"
        (fun d => ((calculate_least_freq_ip d).1.map OutVal.s, (calculate_least_freq_ip d).2))
        acc1 with
    | Except.error e => Except.error e
    | Except.ok acc2 =>
      match runStat args.least_freq_ip "Events per second"
          (fun d => ((calculate_events_sec d).1.map OutVal.q, (calculate_events_sec d).2))
          acc2 with
      | Except.error e => Except.error e
      | Except.ok acc3 =>
        runStat args.least_freq_ip "Total amount of bytes exchanged"
          (fun d => (Except.ok (OutVal.n (calculate_total_bytes d).1), (calculate_total_bytes d).2))
          acc3

/-- Modelled from the spec (section 4.3): the least-frequent result the
specification demands — the first client_ip encountered in ingestion order
whose occurrence count is less than or equal to every other count. -/
def first_seen_least (events : List LogEvent) : Option String :=
  (ips events).find?
    (fun s => (ips events).all (fun s2 => cnt events s ≤ cnt events s2))

/-- Modelled from the spec (section 4.4): the number of distinct calendar
days (UTC) that contain at least one event — the divisor the specification
prescribes for events-per-second. -/
def distinct_day_count (events : List LogEvent) : Nat :=
  (eventDays events).dedup.length

/-- Modelled from the spec (section 4.5): the exact, non-overflowing
(arbitrary-precision) total of header_bytes + resp_size_bytes over all
events — the value the claim asserts total_bytes computes. -/
def exact_total_bytes (events : List LogEvent) : Int :=
  (((events.map (fun e => e.header_bytes + e.resp_size_bytes)).sum : Nat) : Int)

/-- A sample event with the given timestamp and client ip; the remaining
fields are fixed plausible tokens.  Used to instantiate theorems at
concrete inputs. -/
def ev (ts : Int) (ip : String) : LogEvent :=
  { timestamp := ts, header_bytes := 100, client_ip := ip, http_resp_code := "200",
    resp_size_bytes := 2, http_req_meth := "GET", url := "/", username := "-",
    access_dest_ip := "-", res_type := "-" }

/-- An event whose byte counters are large enough (while each still fits
in int64) that summing a few of them leaves the signed 64-bit range. -/
def bigEv : LogEvent :=
  { timestamp := 0, header_bytes := 2 ^ 62, client_ip := "a", http_resp_code := "200",
    resp_size_bytes := 2 ^ 62, http_req_meth := "GET", url := "/", username := "-",
    access_dest_ip := "-", res_type := "-" }

/-- Decidable equality of Except results, used to evaluate the embedding at
concrete inputs. -/
instance exceptDecEq {e a : Type} [DecidableEq e] [DecidableEq a] :
    DecidableEq (Except e a)
  | Except.ok x, Except.ok y =>
    if h : x = y then isTrue (by rw [h]) else isFalse (fun c => h (Except.ok.inj c))
  | Except.ok _, Except.error _ => isFalse (fun c => Except.noConfusion c)
  | Except.error _, Except.ok _ => isFalse (fun c => Except.noConfusion c)
  | Except.error x, Except.error y =>
    if h : x = y then isTrue (by rw [h]) else isFalse (fun c => h (Except.error.inj c))

theorem orderedInsert_ne_nil (p : String × Nat) (l : List (String × Nat)) :
    orderedInsert p l ≠ [] := by
  cases l with
  | nil => simp [orderedInsert]
  | cons q t =>
    simp only [orderedInsert]
    by_cases h : q.2 ≤ p.2 <;> simp [h]

theorem mem_orderedInsert (a p : String × Nat) (l : List (String × Nat)) :
    a ∈ orderedInsert p l ↔ a = p ∨ a ∈ l := by
  induction l with
  | nil => simp [orderedInsert]
  | cons q t ih =>
    simp only [orderedInsert]
    by_cases h : q.2 ≤ p.2
    · simp only [if_pos h, List.mem_cons]
    · simp only [if_neg h, List.mem_cons, ih]
      tauto

theorem mem_sortDesc (a : String × Nat) (l : List (String × Nat)) :
    a ∈ sortDesc l ↔ a ∈ l := by
  induction l with
  | nil => simp [sortDesc]
  | cons p t ih => simp [sortDesc, mem_orderedInsert, ih]

theorem all_congr_mem {α : Type} (p : α → Bool) {l1 l2 : List α}
    (h : ∀ a, a ∈ l1 ↔ a ∈ l2) : l1.all p = l2.all p := by
  by_cases h1 : l1.all p = true
  · rw [h1]
    symm
    rw [List.all_eq_true] at h1 ⊢
    intro a ha
    exact h1 a ((h a).mpr ha)
  · have h2 : ¬ l2.all p = true := by
      intro h2
      apply h1
      rw [List.all_eq_true] at h2 ⊢
      intro a ha
      exact h2 a ((h a).mp ha)
    rw [Bool.not_eq_true] at h1 h2
    rw [h1, h2]

theorem find?_congr_mem {α : Type} {p q : α → Bool} {l : List α}
    (h : ∀ a ∈ l, p a = q a) : l.find? p = l.find? q := by
  induction l with
  | nil => rfl
  | cons x xs ih =>
    have hx : p x = q x := h x (by simp)
    cases hp : p x
    · rw [List.find?_cons_of_neg _ (by simp [hp]),
        List.find?_cons_of_neg _ (by simp [← hx, hp])]
      exact ih (fun a ha => h a (by simp [ha]))
    · rw [List.find?_cons_of_pos _ hp, List.find?_cons_of_pos _ (hx ▸ hp)]

theorem getLast?_orderedInsert (x : String × Nat) (l : List (String × Nat)) :
    (orderedInsert x l).getLast? =
      if l.all (fun q => x.2 < q.2) then some x else l.getLast? := by
  induction l with
  | nil => simp [orderedInsert]
  | cons q t ih =>
    simp only [orderedInsert]
    by_cases hc : q.2 ≤ x.2
    · rw [if_pos hc]
      have h2 : ((q :: t).all (fun r => x.2 < r.2)) = false := by
        rw [List.all_eq_false]
        exact ⟨q, by simp, by simp; omega⟩
      rw [h2, List.getLast?_cons_cons]
      simp
    · rw [if_neg hc]
      cases ho : orderedInsert x t with
      | nil => exact absurd ho (orderedInsert_ne_nil _ _)
      | cons a s =>
        rw [ho] at ih
        rw [List.getLast?_cons_cons]
        have hq : (decide (x.2 < q.2)) = true := by simp; omega
        rw [List.all_cons, hq, Bool.true_and]
        by_cases ht : t.all (fun r => x.2 < r.2) = true
        · rw [ht] at ih
          rw [ht]
          simp only [if_true] at ih ⊢
          exact ih
        · have ht' : t.all (fun r => x.2 < r.2) = false := by simpa using ht
          rw [ht'] at ih
          rw [ht']
          simp only [Bool.false_eq_true, if_false] at ih ⊢
          cases t with
          | nil => simp at ht'
          | cons b u =>
            rw [List.getLast?_cons_cons]
            exact ih

theorem exists_min_pair : ∀ (l : List (String × Nat)), l ≠ [] →
    ∃ m, m ∈ l ∧ l.all (fun q => m.2 ≤ q.2) = true := by
  intro l
  induction l with
  | nil => intro h; exact absurd rfl h
  | cons x xs ih =>
    intro _
    by_cases hxs : xs = []
    · subst hxs
      exact ⟨x, by simp, by simp⟩
    · obtain ⟨m, hm, hmall⟩ := ih hxs
      by_cases hc : x.2 ≤ m.2
      · refine ⟨x, by simp, ?_⟩
        rw [List.all_eq_true]
        intro r hr
        rcases List.mem_cons.mp hr with h | h
        · subst h; simp
        · have := List.all_eq_true.mp hmall r h
          simp at this ⊢
          omega
      · refine ⟨m, by simp [hm], ?_⟩
        rw [List.all_eq_true]
        intro r hr
        rcases List.mem_cons.mp hr with h | h
        · subst h; simp; omega
        · exact List.all_eq_true.mp hmall r h

theorem getLast?_sortDesc (l : List (String × Nat)) :
    (sortDesc l).getLast? = l.reverse.find? (fun p => l.all (fun q => p.2 ≤ q.2)) := by
  induction l with
  | nil => rfl
  | cons x xs ih =>
    have hsd : sortDesc (x :: xs) = orderedInsert x (sortDesc xs) := rfl
    rw [hsd, getLast?_orderedInsert,
      all_congr_mem (fun q => decide (x.2 < q.2)) (fun a => mem_sortDesc a xs),
      List.reverse_cons]
    by_cases hstrict : xs.all (fun q => x.2 < q.2) = true
    · rw [hstrict]
      simp only [if_true]
      rw [List.find?_append]
      have hnone : xs.reverse.find? (fun p => (x :: xs).all (fun q => p.2 ≤ q.2)) = none := by
        rw [List.find?_eq_none]
        intro a ha
        rw [List.mem_reverse] at ha
        have hax : x.2 < a.2 := by
          have := List.all_eq_true.mp hstrict a ha
          simpa using this
        simp only [List.all_cons, Bool.and_eq_true, decide_eq_true_eq]
        intro hcontra
        omega
      rw [hnone, Option.none_or]
      have hx : ((x :: xs).all (fun q => x.2 ≤ q.2)) = true := by
        rw [List.all_eq_true]
        intro r hr
        rcases List.mem_cons.mp hr with h | h
        · subst h; simp
        · have := List.all_eq_true.mp hstrict r h
          simp at this ⊢
          omega
      rw [List.find?_cons_of_pos _ (by simpa using hx)]
    · have hstrict' : xs.all (fun q => x.2 < q.2) = false := by simpa using hstrict
      rw [hstrict']
      simp only [Bool.false_eq_true, if_false]
      rw [ih]
      have hxs_ne : xs ≠ [] := by
        intro h
        subst h
        simp at hstrict'
      obtain ⟨q0, hq0mem, hq0p⟩ := List.all_eq_false.mp hstrict'
      have hq0 : q0.2 ≤ x.2 := by
        simp at hq0p
        omega
      obtain ⟨m, hmmem, hmall⟩ := exists_min_pair xs hxs_ne
      have hcong : ∀ a ∈ xs.reverse,
          ((x :: xs).all (fun q => a.2 ≤ q.2)) = (xs.all (fun q => a.2 ≤ q.2)) := by
        intro a ha
        rw [List.mem_reverse] at ha
        cases hq : xs.all (fun q => a.2 ≤ q.2)
        · simp [List.all_cons, hq]
        · have haq0 : a.2 ≤ q0.2 := by
            simpa using List.all_eq_true.mp hq q0 hq0mem
          simp only [List.all_cons, hq, Bool.and_true, decide_eq_true_eq]
          omega
      rw [List.find?_append, find?_congr_mem hcong]
      have hsome : (xs.reverse.find? (fun p => xs.all (fun q => p.2 ≤ q.2))).isSome := by
        rw [List.find?_isSome]
        exact ⟨m, by simp [List.mem_reverse, hmmem], hmall⟩
      obtain ⟨y, hy⟩ := Option.isSome_iff_exists.mp hsome
      rw [hy, Option.or_some]

theorem mem_firstSeenKeys {α : Type} [DecidableEq α] (a : α) (l : List α) :
    a ∈ firstSeenKeys l ↔ a ∈ l := by
  induction l using firstSeenKeys.induct with
  | case1 => simp [firstSeenKeys]
  | case2 x xs ih =>
    rw [firstSeenKeys]
    simp only [List.mem_cons, ih, List.mem_filter, decide_eq_true_eq]
    by_cases hax : a = x
    · simp [hax]
    · simp [hax]

theorem all_map_general {α β : Type} (f : α → β) (p : β → Bool) (l : List α) :
    (l.map f).all p = l.all (fun a => p (f a)) := by
  induction l with
  | nil => rfl
  | cons x xs ih => simp only [List.map_cons, List.all_cons, ih]

theorem value_counts_getLast? (xs : List String) :
    (value_counts xs).getLast? =
      ((firstSeenKeys xs).reverse.find?
          (fun s => xs.all (fun s2 => xs.count s ≤ xs.count s2))).map
        (fun k => (k, xs.count k)) := by
  rw [show value_counts xs
      = sortDesc ((firstSeenKeys xs).map (fun k => (k, xs.count k))) from rfl]
  rw [getLast?_sortDesc, ← List.map_reverse, List.find?_map]
  congr 1
  apply find?_congr_mem
  intro a _
  simp only [Function.comp_apply]
  rw [all_map_general]
  exact all_congr_mem _ (fun b => mem_firstSeenKeys b xs)


theorem value_counts_ne_nil (events : List LogEvent) (h : events ≠ []) :
    value_counts (ips events) ≠ [] := by
  cases events with
  | nil => exact absurd rfl h
  | cons e t =>
    show sortDesc ((firstSeenKeys (ips (e :: t))).map (fun k => (k, (ips (e :: t)).count k))) ≠ []
    rw [show ips (e :: t) = e.client_ip :: ips t from rfl, firstSeenKeys]
    exact orderedInsert_ne_nil _ _

/-- C5 amended: for every non-empty EventSet, calculate_least_freq_ip
returns a client_ip whose occurrence count is less than or equal to that
of every other client_ip — a consequence of the descending count order
alone, independent of any tie order.  The first-encountered tie-break the
claim states does not hold (see the counterexample), and no other
tie-break is asserted in its place: pandas sorts the counts with an
unstable sort, so the program fixes no order among equal counts. -/
theorem least_freq_ip_count_min (events : List LogEvent) (h : events ≠ []) :
    ∃ ip, (calculate_least_freq_ip (DataFrame.ofRows events)).1 = Except.ok ip ∧
      ∀ e ∈ events, cnt events ip ≤ cnt events e.client_ip := by
  cases hp : (value_counts (ips events)).getLast? with
  | none =>
    rw [List.getLast?_eq_none_iff] at hp
    exact absurd hp (value_counts_ne_nil events h)
  | some p =>
    obtain ⟨k, hk, hpk⟩ := Option.map_eq_some'.mp ((value_counts_getLast? (ips events)) ▸ hp)
    refine ⟨k, ?_, ?_⟩
    · have hcalc : (calculate_least_freq_ip (DataFrame.ofRows events)).1
          = match (value_counts (ips events)).getLast? with
            | some p => Except.ok p.1
            | none => Except.error PyError.indexError := rfl
      rw [hcalc, hp, ← hpk]
    · intro e he
      have hq := List.find?_some hk
      simp only [List.all_eq_true, decide_eq_true_eq] at hq
      exact hq _ (List.mem_map_of_mem _ he)

/-- C5 amended witness: at the concrete EventSet [a, a, b] the theorem
applies; the returned ip has minimal count. -/
theorem least_freq_ip_count_min_witness :
    ∃ ip, (calculate_least_freq_ip (DataFrame.ofRows [ev 0 "a", ev 1 "a", ev 2 "b"])).1
        = Except.ok ip ∧
      ∀ e ∈ [ev 0 "a", ev 1 "a", ev 2 "b"],
        cnt [ev 0 "a", ev 1 "a", ev 2 "b"] ip
          ≤ cnt [ev 0 "a", ev 1 "a", ev 2 "b"] e.client_ip :=
  least_freq_ip_count_min [ev 0 "a", ev 1 "a", ev 2 "b"] (List.cons_ne_nil _ _)

/-- C5 counterexample: on the EventSet [a, b] both counts are 1.  For an
array this small numpy introsort is a plain, stable insertion sort, so
value_counts keeps the first-appearance order [a, b], and .index[-1]
returns b — not the first-encountered tied minimum a that the claim
demands. -/
theorem least_freq_ip_first_seen_counterexample :
    (calculate_least_freq_ip (DataFrame.ofRows [ev 0 "a", ev 1 "b"])).1 = Except.ok "b" ∧
    first_seen_least [ev 0 "a", ev 1 "b"] = some "a" := by
  constructor
  · simp [calculate_least_freq_ip, value_counts, firstSeenKeys, sortDesc, orderedInsert,
      ips, DataFrame.ofRows, ev]
  · decide

/-- C3 counterexample: on the empty EventSet calculate_most_freq_ip fails
with the deferred IndexError of .index[0] on an empty index, not with the
EmptyInputError that the claim states is checked before the computation. -/
theorem empty_eventset_no_emptyinputerror :
    (calculate_most_freq_ip (DataFrame.ofRows [])).1 ≠ Except.error PyError.emptyInput := by
  simp [calculate_most_freq_ip, value_counts, firstSeenKeys, ips, sortDesc, DataFrame.ofRows]

/-- C3 amended: on the empty EventSet, calculate_most_freq_ip and
calculate_least_freq_ip fail with IndexError (.index[0] and .index[-1] on
an empty index), calculate_events_sec fails with ZeroDivisionError (the
Grouper has zero bins), and calculate_total_bytes succeeds with 0.  No
EmptyInputError pre-check exists anywhere. -/
theorem empty_eventset_amended :
    (calculate_most_freq_ip (DataFrame.ofRows [])).1 = Except.error PyError.indexError ∧
    (calculate_least_freq_ip (DataFrame.ofRows [])).1 = Except.error PyError.indexError ∧
    (calculate_events_sec (DataFrame.ofRows [])).1 = Except.error PyError.zeroDivisionError ∧
    (calculate_total_bytes (DataFrame.ofRows [])).1 = 0 := by
  refine ⟨?_, ?_, ?_, by decide⟩ <;>
    simp [calculate_most_freq_ip, calculate_least_freq_ip, calculate_events_sec,
      value_counts, firstSeenKeys, ips, sortDesc,
      DataFrame.ofRows, pyDiv, number_of_groups]

theorem number_of_groups_eq (events : List LogEvent) (h : events ≠ []) :
    number_of_groups events = (maxDay events - minDay events).toNat + 1 := by
  rw [number_of_groups, if_neg (by simpa using h), date_range,
    List.length_map, List.length_range]

theorem calculate_events_sec_eval (events : List LogEvent) (h : events ≠ []) :
    (calculate_events_sec (DataFrame.ofRows events)).1
      = Except.ok ((events.length : ℚ) / (number_of_groups events : ℚ) / 86400) := by
  have hne : ((number_of_groups events : ℚ)) ≠ 0 := by
    rw [number_of_groups_eq events h, Nat.cast_ne_zero]
    exact Nat.succ_ne_zero _
  have h86 : ((86400 : ℚ)) ≠ 0 := by norm_num
  show (match pyDiv ((events.length : ℚ)) ((number_of_groups events : ℚ)) with
    | Except.ok a => pyDiv a 86400
    | Except.error e => Except.error e)
      = Except.ok ((events.length : ℚ) / (number_of_groups events : ℚ) / 86400)
  rw [pyDiv, if_neg hne]
  show pyDiv ((events.length : ℚ) / (number_of_groups events : ℚ)) 86400
      = Except.ok ((events.length : ℚ) / (number_of_groups events : ℚ) / 86400)
  rw [pyDiv, if_neg h86]

/-- C1 amended: for every non-empty EventSet, calculate_events_sec returns
count / number_of_groups / 86400, where number_of_groups is the number of
calendar days (UTC) in the closed span from the day of the earliest event
to the day of the latest event — the pandas time-Grouper creates a bin for
every day of the span, so gap days with no events do contribute to the
divisor, contrary to the claim. -/
theorem events_per_second_span_days (events : List LogEvent) (h : events ≠ []) :
    (calculate_events_sec (DataFrame.ofRows events)).1
        = Except.ok ((events.length : ℚ) / (number_of_groups events : ℚ) / 86400) ∧
      number_of_groups events = (maxDay events - minDay events).toNat + 1 :=
  ⟨calculate_events_sec_eval events h, number_of_groups_eq events h⟩

/-- C1 amended witness: the theorem applied to a one-event set. -/
theorem events_per_second_span_days_witness :
    (calculate_events_sec (DataFrame.ofRows [ev 0 "a"])).1
        = Except.ok (([ev 0 "a"].length : ℚ) / (number_of_groups [ev 0 "a"] : ℚ) / 86400) ∧
      number_of_groups [ev 0 "a"] = (maxDay [ev 0 "a"] - minDay [ev 0 "a"]).toNat + 1 :=
  events_per_second_span_days [ev 0 "a"] (List.cons_ne_nil _ _)

/-- C1 counterexample: two events on days 0 and 2 (timestamps 0 and
172800).  The code divides by 3, the number of calendar days in the span,
gap day included; the claim divides by 2, the number of days that contain
at least one event.  The two formulas disagree here. -/
theorem events_per_second_distinct_days_counterexample :
    (calculate_events_sec (DataFrame.ofRows [ev 0 "a", ev 172800 "b"])).1
      ≠ Except.ok (([ev 0 "a", ev 172800 "b"].length : ℚ)
          / (distinct_day_count [ev 0 "a", ev 172800 "b"] : ℚ) / 86400) := by
  rw [calculate_events_sec_eval _ (List.cons_ne_nil _ _)]
  have hg : number_of_groups [ev 0 "a", ev 172800 "b"] = 3 := by decide
  have hd : distinct_day_count [ev 0 "a", ev 172800 "b"] = 2 := by decide
  have hl : ([ev 0 "a", ev 172800 "b"] : List LogEvent).length = 2 := rfl
  rw [hg, hd, hl]
  intro hcontra
  have h2 := Except.ok.inj hcontra
  norm_num at h2

/-- C2 code_bug: with the flag set {most_freq_ip := false, least_freq_ip :=
false, events_sec := true, total_bytes := true} and a non-empty frame, main
emits no (label, value) pair at all: the blocks for events-per-second and
total-bytes test args.least_freq_ip (src/main.py lines 33 and 38) instead
of their own flags, contradicting the declared CLI interface. -/
theorem stats_flag_gating_code_bug :
    main_outputs
      { most_freq_ip := false, least_freq_ip := false,
        events_sec := true, total_bytes := true }
      (DataFrame.ofRows [ev 0 "a"])
      = Except.ok ([], DataFrame.ofRows [ev 0 "a"]) := rfl

theorem sum_map_add_split (l : List LogEvent) :
    (l.map (fun e => e.header_bytes + e.resp_size_bytes)).sum
      = (l.map (fun e => e.header_bytes)).sum
        + (l.map (fun e => e.resp_size_bytes)).sum := by
  induction l with
  | nil => rfl
  | cons x xs ih =>
    simp only [List.map_cons, List.sum_cons, ih]
    omega

theorem int64_wrap_eq_self {n : Int} (h0 : -(2 ^ 63) ≤ n) (h1 : n < 2 ^ 63) :
    int64_wrap n = n := by
  rw [int64_wrap]
  norm_num at h0 h1 ⊢
  omega

theorem int64_wrap_add_wrap (a b : Int) :
    int64_wrap (int64_wrap a + int64_wrap b) = int64_wrap (a + b) := by
  simp only [int64_wrap]
  norm_num
  omega

theorem total_bytes_column_sums (l : List LogEvent) :
    (calculate_total_bytes (DataFrame.ofRows l)).1 = int64_wrap (exact_total_bytes l) := by
  simp only [calculate_total_bytes, DataFrame.ofRows]
  rw [int64_wrap_add_wrap]
  congr 1
  rw [exact_total_bytes, sum_map_add_split]
  push_cast
  ring

/-- C9 amended: calculate_total_bytes over a concatenation equals the two
totals recombined by int64 (wrapping) addition, and the total of an
EventSet is the exact sum of header_bytes + resp_size_bytes reduced into
the signed 64-bit range — so it equals the exact non-overflowing sum only
while that sum stays below 2^63, and is silently wrapped beyond. -/
theorem total_bytes_wrap_additive (l1 l2 : List LogEvent) :
    (calculate_total_bytes (DataFrame.ofRows (l1 ++ l2))).1
        = int64_wrap ((calculate_total_bytes (DataFrame.ofRows l1)).1
            + (calculate_total_bytes (DataFrame.ofRows l2)).1) ∧
      (calculate_total_bytes (DataFrame.ofRows l1)).1 = int64_wrap (exact_total_bytes l1) ∧
      (exact_total_bytes l1 < 2 ^ 63 →
        (calculate_total_bytes (DataFrame.ofRows l1)).1 = exact_total_bytes l1) := by
  have hexp : exact_total_bytes (l1 ++ l2) = exact_total_bytes l1 + exact_total_bytes l2 := by
    rw [exact_total_bytes, exact_total_bytes, exact_total_bytes,
      List.map_append, List.sum_append]
    push_cast
    ring
  refine ⟨?_, total_bytes_column_sums l1, ?_⟩
  · rw [total_bytes_column_sums, total_bytes_column_sums, total_bytes_column_sums,
      int64_wrap_add_wrap, hexp]
  · intro hlt
    rw [total_bytes_column_sums]
    have h0 : (0 : Int) ≤ exact_total_bytes l1 := by
      rw [exact_total_bytes]
      exact Int.natCast_nonneg _
    exact int64_wrap_eq_self (le_trans (by norm_num) h0) hlt

/-- C9 amended witness: the theorem applied to two one-event sets with
small byte counts; their exact total is far below 2^63, so the computed
total equals the exact sum. -/
theorem total_bytes_wrap_additive_witness :
    ((calculate_total_bytes (DataFrame.ofRows ([ev 0 "a"] ++ [ev 1 "b"]))).1
        = int64_wrap ((calculate_total_bytes (DataFrame.ofRows [ev 0 "a"])).1
            + (calculate_total_bytes (DataFrame.ofRows [ev 1 "b"])).1)) ∧
      (calculate_total_bytes (DataFrame.ofRows [ev 0 "a"])).1
        = int64_wrap (exact_total_bytes [ev 0 "a"]) ∧
      (exact_total_bytes [ev 0 "a"] < 2 ^ 63 ∧
        (calculate_total_bytes (DataFrame.ofRows [ev 0 "a"])).1
          = exact_total_bytes [ev 0 "a"]) :=
  ⟨(total_bytes_wrap_additive [ev 0 "a"] [ev 1 "b"]).1,
   (total_bytes_wrap_additive [ev 0 "a"] [ev 1 "b"]).2.1,
   by decide,
   (total_bytes_wrap_additive [ev 0 "a"] [ev 1 "b"]).2.2 (by decide)⟩

/-- C9 counterexample: two events each holding 2^62 header bytes and 2^62
response bytes.  The exact total is 2^64, but the int64 column sums and
the final addition wrap, so the program computes 0 — the total is neither
the exact non-overflowing sum the claim asserts nor the plain integer sum
of the two one-event totals (each -2^63). -/
theorem total_bytes_overflow_counterexample :
    (calculate_total_bytes (DataFrame.ofRows [bigEv, bigEv])).1 = 0 ∧
    exact_total_bytes [bigEv, bigEv] = 2 ^ 64 ∧
    (calculate_total_bytes (DataFrame.ofRows [bigEv, bigEv])).1
        ≠ exact_total_bytes [bigEv, bigEv] ∧
    (calculate_total_bytes (DataFrame.ofRows ([bigEv] ++ [bigEv]))).1
        ≠ (calculate_total_bytes (DataFrame.ofRows [bigEv])).1
          + (calculate_total_bytes (DataFrame.ofRows [bigEv])).1 := by
  exact ⟨by decide, by decide, by decide, by decide⟩

/-- C10 amended: calculate_most_freq_ip, calculate_least_freq_ip and
calculate_total_bytes leave the frame untouched; calculate_events_sec
preserves the rows (the events, their fields and their order) but mutates
the shared frame by assigning the derived "time" column. -/
theorem analyzers_frame_amended (df : DataFrame) :
    (calculate_most_freq_ip df).2 = df ∧
    (calculate_least_freq_ip df).2 = df ∧
    (calculate_total_bytes df).2 = df ∧
    (calculate_events_sec df).2.rows = df.rows ∧
    (calculate_events_sec df).2.time = some (df.rows.map (fun e => e.timestamp)) :=
  ⟨rfl, rfl, rfl, rfl, rfl⟩

/-- C10 counterexample: on a one-event frame, running calculate_events_sec
leaves a frame different from the input frame (the "time" column has been
added), so the analyzer does mutate the EventSet container. -/
theorem events_sec_mutation_counterexample :
    (calculate_events_sec (DataFrame.ofRows [ev 5 "a"])).2 ≠ DataFrame.ofRows [ev 5 "a"] := by
  intro hcontra
  have h2 := congrArg DataFrame.time hcontra
  simp [calculate_events_sec, DataFrame.ofRows] at h2

theorem read_csv_body_append (k : Nat) (l1 l2 : List String) :
    read_csv_body k (l1 ++ l2)
      = ((read_csv_body k l1).1 ++ (read_csv_body k l2).1,
         (read_csv_body k l1).2 ++ (read_csv_body k l2).2) := by
  induction l1 with
  | nil => simp [read_csv_body]
  | cons x xs ih =>
    simp only [List.cons_append, read_csv_body]
    cases parse_line k x <;> simp [ih]

theorem parse_line_badLine {k : Nat} {line : String}
    (h : 10 + k < (tokenize line).length) :
    parse_line k line = LineResult.badLine line := by
  cases htok : tokenize line with
  | nil => rw [htok] at h; simp at h
  | cons t ts =>
    rw [htok] at h
    simp only [parse_line, htok, h, if_true]

theorem parse_line_row {k : Nat} {line : String} (hne : tokenize line ≠ [])
    (hlen : (tokenize line).length ≤ 10 + k) :
    parse_line k line
      = LineResult.row (((tokenize line).drop k).map Cell.val
          ++ List.replicate (10 - ((tokenize line).length - k)) Cell.nan) := by
  cases htok : tokenize line with
  | nil => exact absurd htok hne
  | cons t ts =>
    rw [htok] at hlen
    have hnot : ¬ 10 + k < (t :: ts).length := by omega
    simp only [parse_line, htok, hnot, if_false]

/-- C6 amended: in a file with no implicit index (its first data row has
at most 10 fields, so the expected width is 10), a line with more than 10
whitespace-separated tokens is a bad line — recorded as a failure and
skipped, every other line of the file still processed — and a non-blank
line with fewer than 10 tokens is NOT rejected: it produces a partial row
padded with NaN.  A FIRST data row with more than 10 tokens is not a
failure either: its extra leading tokens become the implicit row index, a
row is produced, and the expected field count for the whole file widens
accordingly.  No "field count mismatch" reason exists anywhere. -/
theorem field_count_amended :
    (∀ (pre post : List String) (line : String),
      implicit_index_count (pre ++ line :: post) = 0 →
      10 < (tokenize line).length →
      read_csv (pre ++ line :: post)
        = ((read_csv_body 0 pre).1 ++ (read_csv_body 0 post).1,
           (read_csv_body 0 pre).2 ++ line :: (read_csv_body 0 post).2)) ∧
    (∀ (line : String) (rest : List String), 10 < (tokenize line).length →
      read_csv (line :: rest)
        = ((((tokenize line).drop ((tokenize line).length - 10)).map Cell.val)
             :: (read_csv_body ((tokenize line).length - 10) rest).1,
           (read_csv_body ((tokenize line).length - 10) rest).2)) ∧
    (∀ line : String, tokenize line ≠ [] → (tokenize line).length ≤ 10 →
      parse_line 0 line
        = LineResult.row ((tokenize line).map Cell.val
            ++ List.replicate (10 - (tokenize line).length) Cell.nan)) := by
  refine ⟨?_, ?_, ?_⟩
  · intro pre post line hk0 hlen
    rw [read_csv, hk0]
    rw [show (pre ++ line :: post) = pre ++ [line] ++ post from by simp]
    rw [read_csv_body_append, read_csv_body_append]
    rw [show read_csv_body 0 [line] = ([], [line]) from by
      simp [read_csv_body,
        parse_line_badLine (show 10 + 0 < (tokenize line).length from by omega)]]
    simp
  · intro line rest hlen
    have hne : tokenize line ≠ [] := by
      intro hc
      rw [hc] at hlen
      simp at hlen
    have hfind : (line :: rest).find? (fun l => !(tokenize l).isEmpty) = some line :=
      List.find?_cons_of_pos _ (by simp [List.isEmpty_iff, hne])
    have hk : implicit_index_count (line :: rest) = (tokenize line).length - 10 := by
      simp only [implicit_index_count, hfind]
    rw [read_csv, hk]
    have hrow := @parse_line_row ((tokenize line).length - 10) line hne (by omega)
    have h10 : (tokenize line).length - ((tokenize line).length - 10) = 10 := by omega
    rw [h10] at hrow
    simp only [read_csv_body, hrow, Nat.sub_self, List.replicate_zero, List.append_nil]
  · intro line hne hlen
    have h := @parse_line_row 0 line hne (by omega)
    simpa using h

/-- C6 amended witness: part one applied to an 11-token line preceded by
a 2-token first line (no implicit index), part two to a file whose first
line has 11 tokens, part three to the 2-token line "1 2". -/
theorem field_count_amended_witness :
    (implicit_index_count (["1 2"] ++ "1 2 3 4 5 6 7 8 9 10 11" :: []) = 0 ∧
      10 < (tokenize "1 2 3 4 5 6 7 8 9 10 11").length ∧
      read_csv (["1 2"] ++ "1 2 3 4 5 6 7 8 9 10 11" :: [])
        = ((read_csv_body 0 ["1 2"]).1 ++ (read_csv_body 0 []).1,
           (read_csv_body 0 ["1 2"]).2
             ++ "1 2 3 4 5 6 7 8 9 10 11" :: (read_csv_body 0 []).2)) ∧
    (10 < (tokenize "0 1 2 3 4 5 6 7 8 9 10").length ∧
      read_csv ("0 1 2 3 4 5 6 7 8 9 10" :: [])
        = ((((tokenize "0 1 2 3 4 5 6 7 8 9 10").drop
               ((tokenize "0 1 2 3 4 5 6 7 8 9 10").length - 10)).map Cell.val)
             :: (read_csv_body ((tokenize "0 1 2 3 4 5 6 7 8 9 10").length - 10) []).1,
           (read_csv_body ((tokenize "0 1 2 3 4 5 6 7 8 9 10").length - 10) []).2)) ∧
    (tokenize "1 2" ≠ [] ∧ (tokenize "1 2").length ≤ 10 ∧
      parse_line 0 "1 2"
        = LineResult.row ((tokenize "1 2").map Cell.val
            ++ List.replicate (10 - (tokenize "1 2").length) Cell.nan)) :=
  ⟨⟨by decide, by decide,
    field_count_amended.1 ["1 2"] [] _ (by decide) (by decide)⟩,
   ⟨by decide, field_count_amended.2.1 _ [] (by decide)⟩,
   by decide, by decide, field_count_amended.2.2 _ (by decide) (by decide)⟩

/-- C6 counterexample: the one-line file "1 2 3" (3 fields) yields a
partial NaN-padded row and no failure, and the one-line file with 11
fields yields a row as well (its first field becoming the implicit row
index) with no failure — while the claim demands a ParseFailure and no
event in both cases. -/
theorem short_line_partial_row_counterexample :
    read_csv ["1 2 3"]
      = ([[Cell.val "1", Cell.val "2", Cell.val "3", Cell.nan, Cell.nan, Cell.nan,
           Cell.nan, Cell.nan, Cell.nan, Cell.nan]], []) ∧
    read_csv ["0 1 2 3 4 5 6 7 8 9 10"]
      = ([[Cell.val "1", Cell.val "2", Cell.val "3", Cell.val "4", Cell.val "5",
           Cell.val "6", Cell.val "7", Cell.val "8", Cell.val "9", Cell.val "10"]], []) := by
  exact ⟨by decide, by decide⟩

/-- C7 amended: no numeric validation happens at row conversion: every
line whose token count equals the expected width 10 + k becomes a row
holding its last 10 tokens raw and unconverted — whatever the tokens in
the numeric columns look like, a non-numeric token merely making the
pandas column object-typed.  With no implicit index (k = 0) the row is
exactly the ten tokens of the line; in a file with k implicit index
columns a 10-token line instead contributes a NaN-padded, index-shifted
row (see the third part of field_count_amended with the width lemma
parse_line_row), never a ParseFailure. -/
theorem numeric_fields_unvalidated (k : Nat) (line : String)
    (h : (tokenize line).length = 10 + k) :
    parse_line k line = LineResult.row (((tokenize line).drop k).map Cell.val) := by
  have hne : tokenize line ≠ [] := by
    intro hcontra
    rw [hcontra] at h
    simp only [List.length_nil] at h
    omega
  have hr := @parse_line_row k line hne (by omega)
  have h10 : (tokenize line).length - k = 10 := by omega
  rw [h10] at hr
  simpa using hr

/-- C7 amended witness: the theorem applied at width 10 (no implicit
index) to a 10-token line whose timestamp field is the non-numeric token
abc. -/
theorem numeric_fields_unvalidated_witness :
    (tokenize "abc 0 ip 200 5 GET url usr dst typ").length = 10 + 0 ∧
    parse_line 0 "abc 0 ip 200 5 GET url usr dst typ"
      = LineResult.row
          (((tokenize "abc 0 ip 200 5 GET url usr dst typ").drop 0).map Cell.val) :=
  ⟨by decide, numeric_fields_unvalidated 0 _ (by decide)⟩

/-- C7 counterexample: the one-line file whose header_bytes field is the
non-numeric token xyz is not rejected: read_csv produces a full row with
the token kept as a string and records no failure, while the claim demands
a ParseFailure with reason naming the invalid numeric field. -/
theorem non_numeric_token_row_counterexample :
    read_csv ["1700000000 xyz ip 200 5 GET url usr dst typ"]
      = ([[Cell.val "1700000000", Cell.val "xyz", Cell.val "ip",
          Cell.val "200", Cell.val "5", Cell.val "GET", Cell.val "url", Cell.val "usr",
          Cell.val "dst", Cell.val "typ"]], []) := by decide

theorem read_input_core_append (fs : String → FSEntry) (l1 l2 : List String) :
    read_input_core fs (l1 ++ l2)
      = ((read_input_core fs l1).1 ++ (read_input_core fs l2).1,
         (read_input_core fs l1).2 ++ (read_input_core fs l2).2) := by
  induction l1 with
  | nil => simp [read_input_core]
  | cons q qs ih =>
    simp only [List.cons_append, read_input_core]
    cases fs q <;> simp [ih]

/-- C8 amended: per-line failures indeed never abort ingestion — every line
of every openable file is processed, and a nonexistent input path is
skipped after contributing exactly one logged error tagged with the path —
but a file that exists and cannot be opened (wrong permissions) raises out
of pandas.read_csv and aborts the whole ingestion: no row of any later
file is ingested, contrary to the claim. -/
theorem ingestion_continuation_amended :
    (∀ (fs : String → FSEntry) (files : List String),
      (∀ p ∈ files, (readableLines (fs p)).isSome) →
      parse_squid_log_file fs files
        = Except.ok
            (files.flatMap (fun p => (read_csv ((readableLines (fs p)).getD [])).1),
             files.flatMap (fun p => (read_csv ((readableLines (fs p)).getD [])).2))) ∧
    (∀ (fs : String → FSEntry) (paths1 paths2 : List String) (p : String),
      fs p = FSEntry.missing →
      read_input_core fs (paths1 ++ p :: paths2)
        = ((read_input_core fs paths1).1 ++ (read_input_core fs paths2).1,
           (read_input_core fs paths1).2
             ++ ("Path does not exist: " ++ p) :: (read_input_core fs paths2).2)) ∧
    (∀ (fs : String → FSEntry) (pre post : List String) (p : String) (d : FileData),
      (∀ q ∈ pre, (readableLines (fs q)).isSome) →
      fs p = FSEntry.file d → d.readable = false →
      parse_squid_log_file fs (pre ++ p :: post)
        = Except.error (IngestError.unreadable p)) := by
  refine ⟨?_, ?_, ?_⟩
  · intro fs files hall
    induction files with
    | nil => simp [parse_squid_log_file]
    | cons q rest ih =>
      obtain ⟨lines, hl⟩ :=
        Option.isSome_iff_exists.mp (hall q (List.mem_cons_self q rest))
      have hrest := ih (fun p hp => hall p (List.mem_cons_of_mem q hp))
      simp only [parse_squid_log_file, hl, hrest, List.flatMap_cons]
      simp [hl]
  · intro fs paths1 paths2 p hp
    rw [read_input_core_append]
    have hone : read_input_core fs (p :: paths2)
        = ((read_input_core fs paths2).1,
           ("Path does not exist: " ++ p) :: (read_input_core fs paths2).2) := by
      simp only [read_input_core, hp]
    rw [hone]
  · intro fs pre post p d hpre hp hd
    induction pre with
    | nil =>
      have hopen : readableLines (FSEntry.file d) = none := by
        simp [readableLines, hd]
      simp only [List.nil_append, parse_squid_log_file, hp, hopen]
    | cons q qs ih =>
      obtain ⟨lines, hl⟩ :=
        Option.isSome_iff_exists.mp (hpre q (List.mem_cons_self q qs))
      have hrec := ih (fun r hr => hpre r (List.mem_cons_of_mem q hr))
      simp only [List.cons_append, parse_squid_log_file, hl, List.append_eq, hrec]

/-- C8 amended witness: the three parts instantiated on a two-path
filesystem holding one readable file with one good and one bad line, one
missing path, and one unreadable file. -/
theorem ingestion_continuation_amended_witness :
    ((∀ p ∈ ["G"], (readableLines
        ((fun q => if q = "G"
            then FSEntry.file ⟨true, ["0 1 c 2 3 g u n d t", "1 2 3 4 5 6 7 8 9 10 11"]⟩
            else FSEntry.missing) p)).isSome) ∧
      parse_squid_log_file
        (fun q => if q = "G"
            then FSEntry.file ⟨true, ["0 1 c 2 3 g u n d t", "1 2 3 4 5 6 7 8 9 10 11"]⟩
            else FSEntry.missing) ["G"]
        = Except.ok
            (["G"].flatMap (fun p => (read_csv ((readableLines
                ((fun q => if q = "G"
                    then FSEntry.file ⟨true, ["0 1 c 2 3 g u n d t", "1 2 3 4 5 6 7 8 9 10 11"]⟩
                    else FSEntry.missing) p)).getD [])).1),
             ["G"].flatMap (fun p => (read_csv ((readableLines
                ((fun q => if q = "G"
                    then FSEntry.file ⟨true, ["0 1 c 2 3 g u n d t", "1 2 3 4 5 6 7 8 9 10 11"]⟩
                    else FSEntry.missing) p)).getD [])).2))) ∧
    ((fun _ => FSEntry.missing : String → FSEntry) "M" = FSEntry.missing ∧
      read_input_core (fun _ => FSEntry.missing) ([] ++ "M" :: [])
        = ((read_input_core (fun _ => FSEntry.missing) []).1
             ++ (read_input_core (fun _ => FSEntry.missing) []).1,
           (read_input_core (fun _ => FSEntry.missing) []).2
             ++ ("Path does not exist: " ++ "M")
               :: (read_input_core (fun _ => FSEntry.missing) []).2)) ∧
    ((∀ q ∈ ([] : List String), (readableLines
        ((fun r => if r = "U" then FSEntry.file ⟨false, []⟩ else FSEntry.missing) q)).isSome) ∧
      (fun r => if r = "U" then FSEntry.file ⟨false, []⟩ else FSEntry.missing) "U"
        = FSEntry.file ⟨false, []⟩ ∧
      (⟨false, []⟩ : FileData).readable = false ∧
      parse_squid_log_file
        (fun r => if r = "U" then FSEntry.file ⟨false, []⟩ else FSEntry.missing)
        ([] ++ "U" :: ["W"])
        = Except.error (IngestError.unreadable "U")) :=
  ⟨⟨by decide, ingestion_continuation_amended.1 _ ["G"] (by decide)⟩,
   ⟨by decide, ingestion_continuation_amended.2.1 _ [] [] "M" (by decide)⟩,
   ⟨by decide, by decide, by decide,
    ingestion_continuation_amended.2.2 _ [] ["W"] "U" ⟨false, []⟩
      (by decide) (by decide) (by decide)⟩⟩

/-- C8 counterexample: two files A (existing but unreadable) and B
(readable, holding one well-formed line).  Ingestion raises on A and aborts
with no result at all, so the remaining file B — which would have
contributed a row — is never processed, contradicting the claim that an
unopenable file never aborts ingestion. -/
theorem unreadable_file_aborts_counterexample :
    parse_squid_log_file
      (fun p => if p = "A" then FSEntry.file ⟨false, ["0 1 c 2 3 g u n d t"]⟩
        else if p = "B" then FSEntry.file ⟨true, ["0 1 c 2 3 g u n d t"]⟩
        else FSEntry.missing)
      ["A", "B"]
      = Except.error (IngestError.unreadable "A") ∧
    (read_csv ["0 1 c 2 3 g u n d t"]).1 ≠ [] := by
  constructor
  · decide
  · decide
